import Mathlib

/-!
Verification development for the YouTube transcript agent (`agent.py`).

The file shallowly embeds the pure content of the program:
* the video-id extraction step of `fetch_youtube_transcript`
  (the regex `(?:v=|\/)([0-9A-Za-z_-]{11}).*` applied with `re.match`),
* the transcript formatting step (timestamps `[MM:SS]` joined by newlines),
* the error behaviour of `fetch_youtube_transcript`,
* the interactive loop of `main` and its stream-event dispatcher,
and proves the specified properties about these definitions.
-/

namespace YTAgent

/-! ### Transcript records and the formatting step (`agent.py`, lines 84–99)

A transcript entry, as returned by the external transcript source:
a numeric start offset in seconds and the caption text.  Start offsets
are modelled as rationals (exact arithmetic for the numeric operations
`//`, `%`, `int` used by the code). -/

structure TranscriptEntry where
  start : ℚ
  text : String
deriving DecidableEq

/-- Python `int(q)` on a numeric value: truncation toward zero. -/
def pyInt (q : ℚ) : ℤ := if 0 ≤ q then q.floor else q.ceil

/-- Python floor division `a // b` (as a numeric value). -/
def pyFloorDiv (a b : ℚ) : ℚ := ((a / b).floor : ℤ)

/-- Python modulo `a % b`, i.e. `a - b * (a // b)`. -/
def pyMod (a b : ℚ) : ℚ := a - b * (((a / b).floor : ℤ) : ℚ)

/-- Python `f"{n:02d}"`: decimal rendering of an integer, zero-padded to width 2. -/
def format02d (n : ℤ) : String := if 0 ≤ n ∧ n < 10 then "0" ++ n.repr else n.repr

/-- One iteration of the formatting loop:
`minutes = int(entry['start'] // 60)`, `seconds = int(entry['start'] % 60)`,
`f"[{minutes:02d}:{seconds:02d}] {entry['text']}"`. -/
def formatEntry (e : TranscriptEntry) : String :=
  "[" ++ format02d (pyInt (pyFloorDiv e.start 60)) ++ ":"
      ++ format02d (pyInt (pyMod e.start 60)) ++ "] " ++ e.text

/-- The whole formatting step: one line per entry, `"\n".join(formatted_entries)`. -/
def formatTranscript (ts : List TranscriptEntry) : String :=
  String.intercalate "\n" (ts.map formatEntry)

/-! ### Video-id extraction (`agent.py`, lines 72–79) -/

/-- The character class `[0-9A-Za-z_-]` of the video-id regex. -/
def isVidChar (c : Char) : Bool :=
  c.isDigit || c.isUpper || c.isLower || c = '_' || c = '-'

/-- One attempt of the regex `(?:v=|\/)([0-9A-Za-z_-]{11}).*` at the head of `cs`:
match the separator (`v=` or `/`), then capture exactly eleven characters of the
identifier class.  The trailing `.*` consumes the remainder and never fails. -/
def matchIdAt : List Char → Option (List Char)
  | 'v' :: '=' :: rest =>
    if (rest.take 11).length = 11 && (rest.take 11).all isVidChar then
      some (rest.take 11)
    else none
  | '/' :: rest =>
    if (rest.take 11).length = 11 && (rest.take 11).all isVidChar then
      some (rest.take 11)
    else none
  | _ => none

/-- The video-id extraction step,
`re.match(r'(?:v=|\/)([0-9A-Za-z_-]{11}).*', url)`.
`re.match` anchors the attempt at index 0 of the string, so the single attempt is
made at the head of `url`; `.group(1)` is the captured 11-character run. -/
def extractVideoId (url : String) : Option String :=
  (matchIdAt url.data).map List.asString

/-- Whether the pattern `(?:v=|\/)([0-9A-Za-z_-]{11})` occurs anywhere in the
string, i.e. at the head of some suffix (this is what `re.search` would test,
and what "the URL contains a separator followed by eleven identifier characters"
means). -/
def hasPattern (url : String) : Bool :=
  url.data.tails.any fun t => (matchIdAt t).isSome

/-! ### The tool `fetch_youtube_transcript` (`agent.py`, lines 38–103)

The external transcript source (`YouTubeTranscriptApi.get_transcript`) is a
collaborator outside this program; it is a parameter returning either the
records or the message `str(e)` of the exception it raised. -/

/-- The two failure modes of the tool: the `ValueError` for an invalid URL and
the wrapping `Exception` when the transcript source failed. -/
inductive FetchError where
  | invalidUrl
  | sourceUnavailable (msg : String)
deriving DecidableEq

/-- The wrapping message of the `except` branch:
`f"Error fetching transcript: {str(e)}. This could be due to: video not found,
transcript not available, or API limitations."`. -/
def wrapSourceError (cause : String) : String :=
  "Error fetching transcript: " ++ cause ++
    ". This could be due to: video not found, transcript not available, or API limitations."

/-- The body of `fetch_youtube_transcript`: extract the video id (raising
`ValueError` when the regex does not match), call the source once, format the
records; any source failure is re-raised wrapped. -/
def fetch_youtube_transcript
    (source : String → Except String (List TranscriptEntry)) (url : String) :
    Except FetchError String :=
  match extractVideoId url with
  | none => .error .invalidUrl
  | some videoId =>
    match source videoId with
    | .ok transcript => .ok (formatTranscript transcript)
    | .error e => .error (.sourceUnavailable (wrapSourceError e))

/-! ### The interaction loop of `main` and its event dispatcher
(`agent.py`, lines 143–212)

The agent runtime is an external collaborator; it is modelled as an oracle
mapping the conversation snapshot passed to it to the ordered stream of events
of that turn.  The observable behaviour of one loop cycle is recorded as an
ordered trace of primitive actions: history appends, terminal emissions and
agent invocations. -/

/-- One role-tagged message of the conversation history (`input_items`). -/
structure ConvItem where
  role : String
  content : String
deriving DecidableEq

/-- The stream events distinguished by the dispatch in `main`:
raw response text deltas, agent updates, the run items
(`tool_call_item`, `tool_call_output_item`, `message_output_item`) and
the catch-all for any other run item type. -/
inductive StreamEvent where
  | rawTextDelta (delta : String)
  | agentUpdated
  | toolCallStarted
  | toolCallCompleted (output : String)
  | messageOutput (content : String)
  | otherRunItem
deriving DecidableEq

/-- A primitive observable step of the loop: appending one item to the
conversation history, emitting text to the terminal, or invoking the agent
runtime. -/
inductive Action where
  | append (item : ConvItem)
  | emit (s : String)
  | invokeAgent
deriving DecidableEq

/-- The event dispatch of the `async for` loop in `main`: the actions taken
for one consumed stream event, in program order. -/
def dispatchActions : StreamEvent → List Action
  | .rawTextDelta d => [.emit d]
  | .agentUpdated => []
  | .toolCallStarted => [.emit "\n-- Fetching transcript..."]
  | .toolCallCompleted out =>
    [.append ⟨"system", "Transcript:\n" ++ out⟩, .emit "-- Transcript fetched."]
  | .messageOutput content => [.append ⟨"assistant", content⟩]
  | .otherRunItem => []

/-- Replay the history mutations of a trace on a starting history. -/
def applyActions (history : List ConvItem) (as : List Action) : List ConvItem :=
  as.foldl (fun h a => match a with | .append i => h ++ [i] | _ => h) history

/-- Python `s.strip()`: remove leading and trailing whitespace. -/
def pyStrip (s : String) : String :=
  ((s.data.dropWhile Char.isWhitespace).reverse.dropWhile Char.isWhitespace).reverse.asString

/-- Python `s.lower()`: lower-case every character. -/
def pyLower (s : String) : String :=
  (s.data.map Char.toLower).asString

/-- The exit commands checked by `main`: `["exit", "quit", "bye"]`. -/
def exitTokens : List String := ["exit", "quit", "bye"]

/-- One cycle of the `while True` loop of `main`, driven by the raw line read
from input: strip it, append the user item, then either exit, skip the empty
input, or invoke the agent and dispatch its event stream.  Returns the trace
of the cycle and whether the loop breaks. -/
def cycleActions (history : List ConvItem) (rawLine : String)
    (oracle : List ConvItem → List StreamEvent) : List Action × Bool :=
  let user_input := pyStrip rawLine
  if pyLower user_input ∈ exitTokens then
    ([.append ⟨"user", user_input⟩, .emit "Goodbye!"], true)
  else if user_input = "" then
    ([.append ⟨"user", user_input⟩], false)
  else
    ([.append ⟨"user", user_input⟩, .emit "\nAgent: ", .invokeAgent] ++
      (((oracle (history ++ [⟨"user", user_input⟩])).map dispatchActions).flatten ++
        [.emit "\n"]), false)

/-- The whole interactive loop over a (finite prefix of the) input line
sequence: run cycles until one breaks out or the lines are exhausted. -/
def runLoop (oracle : List ConvItem → List StreamEvent) :
    List ConvItem → List String → List Action
  | _, [] => []
  | history, line :: rest =>
    let c := cycleActions history line oracle
    if c.2 then c.1
    else c.1 ++ runLoop oracle (applyActions history c.1) rest

/-! ### The line format described by the specification -/

/-- Rendered from the specification text, for comparison with `formatEntry`:
minutes is the floor of start divided by 60, seconds is the floor of
start mod 60 (the real remainder), both zero-padded to two digits, emitted
as the bracketed timestamp followed by a space and the text. -/
def specLine (e : TranscriptEntry) : String :=
  "[" ++ format02d ⌊e.start / 60⌋ ++ ":"
      ++ format02d ⌊e.start - 60 * ((⌊e.start / 60⌋ : ℤ) : ℚ)⌋ ++ "] " ++ e.text

/-! ### Helper lemmas about the numeric steps -/

theorem rat_floor_eq (q : ℚ) : q.floor = ⌊q⌋ := by
  rw [Rat.floor_def', ← Rat.floor_def]

theorem pyInt_pyFloorDiv (a : ℚ) (h0 : 0 ≤ a) : pyInt (pyFloorDiv a 60) = ⌊a / 60⌋ := by
  simp only [pyInt, pyFloorDiv, rat_floor_eq]
  rw [if_pos (by positivity), Int.floor_intCast]

theorem pyMod_nonneg (a : ℚ) : 0 ≤ pyMod a 60 := by
  have h1 : ((⌊a / 60⌋ : ℤ) : ℚ) ≤ a / 60 := Int.floor_le _
  have h2 : (60 : ℚ) * ((⌊a / 60⌋ : ℤ) : ℚ) ≤ 60 * (a / 60) :=
    mul_le_mul_of_nonneg_left h1 (by norm_num)
  have h3 : (60 : ℚ) * (a / 60) = a := by ring
  simp only [pyMod, rat_floor_eq]
  linarith

theorem pyInt_pyMod (a : ℚ) : pyInt (pyMod a 60) = ⌊a - 60 * ((⌊a / 60⌋ : ℤ) : ℚ)⌋ := by
  rw [pyInt, if_pos (pyMod_nonneg a)]
  simp only [pyMod, rat_floor_eq]

theorem formatEntry_eq_specLine (e : TranscriptEntry) (h : 0 ≤ e.start) :
    formatEntry e = specLine e := by
  rw [formatEntry, specLine, pyInt_pyFloorDiv e.start h, pyInt_pyMod e.start]

/-! ### Helper lemmas: characters of the rendered numbers and lines -/

theorem digitChar_ne_newline (m : ℕ) : Nat.digitChar m ≠ '\n' := by
  match m with
  | 0 | 1 | 2 | 3 | 4 | 5 | 6 | 7 | 8 | 9 | 10 | 11 | 12 | 13 | 14 | 15 => decide
  | n + 16 =>
    unfold Nat.digitChar
    repeat rw [if_neg (by omega)]
    decide

theorem toDigitsCore_ne_newline (b : ℕ) :
    ∀ (f n : ℕ) (ds : List Char), (∀ c ∈ ds, c ≠ '\n') →
      ∀ c ∈ Nat.toDigitsCore b f n ds, c ≠ '\n'
  | 0, _, _, hds => by simpa [Nat.toDigitsCore] using hds
  | f + 1, n, ds, hds => by
    rw [Nat.toDigitsCore]
    split
    · intro c hc
      rcases List.mem_cons.1 hc with h | h
      · subst h; exact digitChar_ne_newline _
      · exact hds c h
    · refine toDigitsCore_ne_newline b f _ _ ?_
      intro c hc
      rcases List.mem_cons.1 hc with h | h
      · subst h; exact digitChar_ne_newline _
      · exact hds c h

theorem natRepr_ne_newline (n : ℕ) : ∀ c ∈ (Nat.repr n).data, c ≠ '\n' := by
  intro c hc
  have h : (Nat.repr n).data = Nat.toDigitsCore 10 (n + 1) n [] := rfl
  rw [h] at hc
  exact toDigitsCore_ne_newline 10 (n + 1) n [] (by simp) c hc

theorem intRepr_ne_newline (n : ℤ) : ∀ c ∈ (Int.repr n).data, c ≠ '\n' := by
  cases n with
  | ofNat m => exact natRepr_ne_newline m
  | negSucc m =>
    intro c hc
    have h : (Int.repr (Int.negSucc m)).data = '-' :: (Nat.repr (m + 1)).data := by
      rw [Int.repr, String.data_append]; rfl
    rw [h] at hc
    rcases List.mem_cons.1 hc with h' | h'
    · subst h'; decide
    · exact natRepr_ne_newline _ c h'

theorem format02d_ne_newline (n : ℤ) : ∀ c ∈ (format02d n).data, c ≠ '\n' := by
  intro c hc
  rw [format02d] at hc
  split at hc
  · rw [String.data_append] at hc
    rcases List.mem_append.1 hc with h | h
    · have h0 : ("0" : String).data = ['0'] := rfl
      rw [h0, List.mem_singleton] at h
      subst h; decide
    · exact intRepr_ne_newline n c h
  · exact intRepr_ne_newline n c hc

theorem formatEntry_ne_newline (e : TranscriptEntry) (ht : '\n' ∉ e.text.data) :
    '\n' ∉ (formatEntry e).data := by
  intro hc
  rw [formatEntry] at hc
  simp only [String.data_append] at hc
  rcases List.mem_append.1 hc with hc | hc
  · rcases List.mem_append.1 hc with hc | hc
    · rcases List.mem_append.1 hc with hc | hc
      · rcases List.mem_append.1 hc with hc | hc
        · rcases List.mem_append.1 hc with hc | hc
          · exact absurd hc (by decide)
          · exact format02d_ne_newline _ _ hc rfl
        · exact absurd hc (by decide)
      · exact format02d_ne_newline _ _ hc rfl
    · exact absurd hc (by decide)
  · exact ht hc

/-! ### Helper lemmas: joining and splitting lines -/

theorem list_intercalate_cons {α : Type} (sep x : List α) (xs : List (List α)) :
    List.intercalate sep (x :: xs) = x ++ (xs.map fun y => sep ++ y).flatten := by
  induction xs generalizing x with
  | nil => simp [List.intercalate]
  | cons a as ih =>
    have h1 : List.intercalate sep (x :: a :: as)
        = x ++ sep ++ List.intercalate sep (a :: as) := by
      simp [List.intercalate, List.intersperse_cons₂]
    rw [h1, ih a]
    simp [List.append_assoc]

theorem string_intercalate_go_data (s : String) :
    ∀ (as : List String) (acc : String),
      (String.intercalate.go acc s as).data
        = acc.data ++ (as.map fun a => s.data ++ a.data).flatten
  | [], acc => by simp [String.intercalate.go]
  | a :: as, acc => by
    rw [String.intercalate.go, string_intercalate_go_data s as (acc ++ s ++ a)]
    simp [String.data_append, List.append_assoc]

theorem string_intercalate_data (s : String) (ss : List String) :
    (String.intercalate s ss).data = List.intercalate s.data (ss.map String.data) := by
  cases ss with
  | nil => rfl
  | cons a as =>
    rw [String.intercalate, string_intercalate_go_data, List.map_cons,
      list_intercalate_cons]
    rw [List.map_map]; rfl

theorem formatTranscript_data (ts : List TranscriptEntry) :
    (formatTranscript ts).data
      = List.intercalate ['\n'] (ts.map fun e => (formatEntry e).data) := by
  rw [formatTranscript, string_intercalate_data, List.map_map]
  rfl

/-! ### Helper lemmas: the extraction step -/

theorem extractVideoId_none_of_no_pattern (url : String) (h : hasPattern url = false) :
    extractVideoId url = none := by
  rw [extractVideoId]
  have hmem : url.data ∈ url.data.tails := (List.mem_tails _ _).2 (List.suffix_refl _)
  have := (List.any_eq_false).1 (by rw [← hasPattern]; exact h) url.data hmem
  rcases hmatch : matchIdAt url.data with _ | v
  · rfl
  · rw [hmatch] at this; simp at this

theorem formatEntry_eval (q : ℚ) (t : String) (m s : ℤ) (h0 : 0 ≤ q)
    (hm : ⌊q / 60⌋ = m) (hs : ⌊q - 60 * ((m : ℤ) : ℚ)⌋ = s) :
    formatEntry ⟨q, t⟩ = "[" ++ format02d m ++ ":" ++ format02d s ++ "] " ++ t := by
  rw [formatEntry_eq_specLine ⟨q, t⟩ h0]
  show "[" ++ format02d ⌊q / 60⌋ ++ ":"
      ++ format02d ⌊q - 60 * ((⌊q / 60⌋ : ℤ) : ℚ)⌋ ++ "] " ++ t = _
  rw [hm, hs]

/-! ### The claims -/

/-- C1: the specified extraction behaviour (match anywhere in the URL,
return the eleven identifier characters, in particular for
`.../watch?v=<11chars>` URLs) does not hold of the code: `re.match` anchors
the regex at index 0, so the documented URL shape is rejected even though the
pattern occurs inside the string.  The theorem evaluates the extraction step
at the failing input from the docstring of `fetch_youtube_transcript`. -/
theorem claim_C1_extraction_anchored_bug :
    extractVideoId "https://www.youtube.com/watch?v=dQw4w9WgXcQ" = none ∧
    hasPattern "https://www.youtube.com/watch?v=dQw4w9WgXcQ" = true := by
  constructor <;> decide

/-- C2: whenever the input string contains no separator (`v=` or `/`) followed
by exactly eleven identifier characters, the extraction step yields no
identifier (not even a partial one) and `fetch_youtube_transcript` fails with
the `InvalidUrl` error; the result is the same for every transcript source,
so no call to the external source is observable. -/
theorem claim_C2_no_pattern_invalidUrl (url : String)
    (h : hasPattern url = false)
    (source : String → Except String (List TranscriptEntry)) :
    extractVideoId url = none ∧
    fetch_youtube_transcript source url = Except.error FetchError.invalidUrl := by
  have hx := extractVideoId_none_of_no_pattern url h
  exact ⟨hx, by simp only [fetch_youtube_transcript, hx]⟩

theorem claim_C2_witness :
    hasPattern "short" = false ∧
    extractVideoId "short" = none ∧
    fetch_youtube_transcript (fun _ => Except.ok []) "short"
      = Except.error FetchError.invalidUrl :=
  ⟨by decide, claim_C2_no_pattern_invalidUrl "short" (by decide) (fun _ => Except.ok [])⟩

/-- C3: for records with non-negative start offsets, the formatting step is
exactly the newline-join, in input order, of the per-record lines described by
the specification (minutes is the floor of start divided by 60, seconds the
floor of start mod 60, both zero-padded); the empty sequence formats to the
empty string, and the two-record example formats as specified. -/
theorem claim_C3_format_spec (ts : List TranscriptEntry)
    (h : ∀ e ∈ ts, 0 ≤ e.start) :
    formatTranscript ts = String.intercalate "\n" (ts.map specLine) ∧
    formatTranscript [] = "" ∧
    formatTranscript [⟨0, "a"⟩, ⟨62, "b"⟩] = "[00:00] a\n[01:02] b" := by
  refine ⟨?_, rfl, ?_⟩
  · rw [formatTranscript]
    congr 1
    exact List.map_congr_left fun e he => formatEntry_eq_specLine e (h e he)
  · have e1 : formatEntry ⟨0, "a"⟩ = "[00:00] a" := by
      rw [formatEntry_eval 0 "a" 0 0 (by norm_num) (by norm_num) (by norm_num)]; rfl
    have e2 : formatEntry ⟨62, "b"⟩ = "[01:02] b" := by
      rw [formatEntry_eval 62 "b" 1 2 (by norm_num) (by norm_num) (by norm_num)]; rfl
    rw [formatTranscript, List.map_cons, List.map_cons, List.map_nil, e1, e2]
    rfl

theorem claim_C3_witness :
    (∀ e ∈ ([⟨0, "a"⟩, ⟨62, "b"⟩] : List TranscriptEntry), 0 ≤ e.start) ∧
    formatTranscript [⟨0, "a"⟩, ⟨62, "b"⟩]
      = String.intercalate "\n" ([⟨0, "a"⟩, ⟨62, "b"⟩].map specLine) := by
  have hpos : ∀ e ∈ ([⟨0, "a"⟩, ⟨62, "b"⟩] : List TranscriptEntry), 0 ≤ e.start := by
    intro e he
    simp only [List.mem_cons, List.not_mem_nil, or_false] at he
    rcases he with rfl | rfl <;> norm_num
  exact ⟨hpos, (claim_C3_format_spec [⟨0, "a"⟩, ⟨62, "b"⟩] hpos).1⟩

/-- C4: the minutes value of a timestamp is the floor of the start offset
divided by 60, neither wrapped modulo 60 nor truncated above 99: start 3600
renders as 60 minutes and start 6000 as 100 minutes (three digits). -/
theorem claim_C4_minutes_unwrapped :
    formatEntry ⟨3600, "a"⟩ = "[60:00] a" ∧
    formatEntry ⟨6000, "b"⟩ = "[100:00] b" ∧
    ∀ e : TranscriptEntry, 0 ≤ e.start →
      pyInt (pyFloorDiv e.start 60) = ⌊e.start / 60⌋ := by
  refine ⟨?_, ?_, fun e he => pyInt_pyFloorDiv e.start he⟩
  · rw [formatEntry_eval 3600 "a" 60 0 (by norm_num) (by norm_num) (by norm_num)]; rfl
  · rw [formatEntry_eval 6000 "b" 100 0 (by norm_num) (by norm_num) (by norm_num)]; rfl

theorem claim_C4_witness :
    (0 : ℚ) ≤ 120 ∧ pyInt (pyFloorDiv (120 : ℚ) 60) = ⌊(120 : ℚ) / 60⌋ :=
  ⟨by norm_num, claim_C4_minutes_unwrapped.2.2 ⟨120, "x"⟩ (by norm_num)⟩

/-- C5 counterexample: for a record whose text itself contains a newline, the
output has more newline-separated lines than there are records, so the
count-preservation claim fails as stated for arbitrary record texts. -/
theorem claim_C5_counterexample :
    ((formatTranscript [⟨0, "a\nb"⟩]).data.splitOn '\n').length
      ≠ ([⟨0, "a\nb"⟩] : List TranscriptEntry).length := by
  have h : formatTranscript [⟨0, "a\nb"⟩] = "[00:00] a\nb" := by
    rw [formatTranscript, List.map_cons, List.map_nil,
        formatEntry_eval 0 "a\nb" 0 0 (by norm_num) (by norm_num) (by norm_num)]
    rfl
  rw [h]
  decide

/-- C5 (amended): for every non-empty input sequence of records whose texts
contain no newline character, splitting the output on newlines returns
exactly the formatted lines of the records, in input order; in particular
the line count equals the record count. -/
theorem claim_C5_lines_preserved (ts : List TranscriptEntry) (hne : ts ≠ [])
    (hnl : ∀ e ∈ ts, '\n' ∉ e.text.data) :
    (formatTranscript ts).data.splitOn '\n'
        = ts.map (fun e => (formatEntry e).data) ∧
    ((formatTranscript ts).data.splitOn '\n').length = ts.length := by
  have key : (formatTranscript ts).data.splitOn '\n'
      = ts.map fun e => (formatEntry e).data := by
    rw [formatTranscript_data]
    have h1 : ∀ l ∈ ts.map (fun e => (formatEntry e).data), '\n' ∉ l := by
      intro l hl
      rcases List.mem_map.1 hl with ⟨e, he, rfl⟩
      exact formatEntry_ne_newline e (hnl e he)
    have h2 : ts.map (fun e => (formatEntry e).data) ≠ [] := by
      cases ts with
      | nil => exact absurd rfl hne
      | cons a as => simp
    exact List.splitOn_intercalate _ '\n' h1 h2
  exact ⟨key, by rw [key, List.length_map]⟩

theorem claim_C5_witness :
    (([⟨0, "a"⟩, ⟨62, "b"⟩] : List TranscriptEntry) ≠ [] ∧
      ∀ e ∈ ([⟨0, "a"⟩, ⟨62, "b"⟩] : List TranscriptEntry), '\n' ∉ e.text.data) ∧
    ((formatTranscript [⟨0, "a"⟩, ⟨62, "b"⟩]).data.splitOn '\n').length
      = ([⟨0, "a"⟩, ⟨62, "b"⟩] : List TranscriptEntry).length := by
  have hne : ([⟨0, "a"⟩, ⟨62, "b"⟩] : List TranscriptEntry) ≠ [] :=
    List.cons_ne_nil _ _
  have hnl : ∀ e ∈ ([⟨0, "a"⟩, ⟨62, "b"⟩] : List TranscriptEntry),
      '\n' ∉ e.text.data := by
    intro e he
    simp only [List.mem_cons, List.not_mem_nil, or_false] at he
    rcases he with rfl | rfl <;> decide
  exact ⟨⟨hne, hnl⟩, (claim_C5_lines_preserved [⟨0, "a"⟩, ⟨62, "b"⟩] hne hnl).2⟩

/-- C6: `fetch_youtube_transcript` fails in exactly two ways: `InvalidUrl`
when extraction fails (and then the source is irrelevant), or
`SourceUnavailable` when the source raised, in which case the raised message
embeds the cause verbatim inside the wrapping text. -/
theorem claim_C6_error_modes
    (source : String → Except String (List TranscriptEntry))
    (url : String) (err : FetchError)
    (h : fetch_youtube_transcript source url = Except.error err) :
    (err = FetchError.invalidUrl ∧ extractVideoId url = none) ∨
    (∃ videoId cause, extractVideoId url = some videoId ∧
      source videoId = Except.error cause ∧
      err = FetchError.sourceUnavailable
        ("Error fetching transcript: " ++ cause ++
          ". This could be due to: video not found, transcript not available, or API limitations.")) := by
  rcases hx : extractVideoId url with _ | vid
  · simp only [fetch_youtube_transcript, hx, Except.error.injEq] at h
    exact Or.inl ⟨h.symm, rfl⟩
  · rcases hs : source vid with c | t
    · simp only [fetch_youtube_transcript, hx, hs, Except.error.injEq] at h
      exact Or.inr ⟨vid, c, rfl, hs, h.symm⟩
    · simp only [fetch_youtube_transcript, hx, hs] at h
      exact Except.noConfusion h

theorem claim_C6_witness :
    ((FetchError.sourceUnavailable (wrapSourceError "boom") = FetchError.invalidUrl ∧
        extractVideoId "/dQw4w9WgXcQ" = none) ∨
      (∃ videoId cause, extractVideoId "/dQw4w9WgXcQ" = some videoId ∧
        (fun _ : String => (Except.error "boom" : Except String (List TranscriptEntry))) videoId
          = Except.error cause ∧
        FetchError.sourceUnavailable (wrapSourceError "boom")
          = FetchError.sourceUnavailable
            ("Error fetching transcript: " ++ cause ++
              ". This could be due to: video not found, transcript not available, or API limitations."))) :=
  claim_C6_error_modes (fun _ => Except.error "boom") "/dQw4w9WgXcQ"
    (FetchError.sourceUnavailable (wrapSourceError "boom")) (by rfl)

theorem dispatchActions_append_roles (ev : StreamEvent) (item : ConvItem)
    (h : Action.append item ∈ dispatchActions ev) :
    item.role = "system" ∨ item.role = "assistant" := by
  cases ev with
  | rawTextDelta d => simp [dispatchActions] at h
  | agentUpdated => simp [dispatchActions] at h
  | toolCallStarted => simp [dispatchActions] at h
  | toolCallCompleted out =>
    simp only [dispatchActions, List.mem_cons, List.not_mem_nil, or_false] at h
    rcases h with h | h
    · exact Or.inl (congrArg ConvItem.role (Action.append.inj h))
    · exact absurd h (by simp)
  | messageOutput content =>
    simp only [dispatchActions, List.mem_cons, List.not_mem_nil, or_false] at h
    exact Or.inr (congrArg ConvItem.role (Action.append.inj h))
  | otherRunItem => simp [dispatchActions] at h

/-- C7: when the stripped, lower-cased input line is one of the exit tokens,
the whole remaining run of the loop is exactly the append of the user item
followed by the farewell: the loop terminates, the agent is never invoked in
that cycle nor afterwards, and the history gains exactly the user item. -/
theorem claim_C7_exit_terminates (oracle : List ConvItem → List StreamEvent)
    (history : List ConvItem) (line : String) (rest : List String)
    (h : pyLower (pyStrip line) ∈ exitTokens) :
    runLoop oracle history (line :: rest)
        = [Action.append ⟨"user", pyStrip line⟩, Action.emit "Goodbye!"] ∧
    Action.invokeAgent ∉ runLoop oracle history (line :: rest) ∧
    applyActions history (runLoop oracle history (line :: rest))
        = history ++ [⟨"user", pyStrip line⟩] := by
  have hc : cycleActions history line oracle
      = ([Action.append ⟨"user", pyStrip line⟩, Action.emit "Goodbye!"], true) := by
    simp only [cycleActions]
    rw [if_pos h]
  have hr : runLoop oracle history (line :: rest)
      = [Action.append ⟨"user", pyStrip line⟩, Action.emit "Goodbye!"] := by
    simp [runLoop, hc]
  refine ⟨hr, ?_, ?_⟩
  · rw [hr]
    intro hmem
    rcases List.mem_cons.1 hmem with h' | h'
    · exact Action.noConfusion h'
    · rcases List.mem_cons.1 h' with h'' | h''
      · exact Action.noConfusion h''
      · simp at h''
  · rw [hr]; rfl

theorem claim_C7_witness :
    pyLower (pyStrip "  EXIT ") ∈ exitTokens ∧
    runLoop (fun _ => []) [] ["  EXIT ", "later"]
      = [Action.append ⟨"user", pyStrip "  EXIT "⟩, Action.emit "Goodbye!"] :=
  ⟨by decide,
    (claim_C7_exit_terminates (fun _ => []) [] "  EXIT " ["later"] (by decide)).1⟩

/-- C8: consuming a tool-call-completed event with output `out` appends
exactly one system item with content `"Transcript:\n" ++ out` to the
history and performs no other history mutation. -/
theorem claim_C8_toolCallCompleted_append (history : List ConvItem) (out : String) :
    applyActions history (dispatchActions (StreamEvent.toolCallCompleted out))
      = history ++ [⟨"system", "Transcript:\n" ++ out⟩] := rfl

/-- C9: consuming a message-output event carrying the final assistant content
appends exactly one assistant item with that content. -/
theorem claim_C9_messageOutput_append (history : List ConvItem) (content : String) :
    applyActions history (dispatchActions (StreamEvent.messageOutput content))
      = history ++ [⟨"assistant", content⟩] := rfl

/-- C10: every user-role item appended during a cycle carries the stripped
form of the raw input line, and both the exit check and the emptiness check
are evaluated on that same stripped string. -/
theorem claim_C10_user_items_stripped (oracle : List ConvItem → List StreamEvent)
    (history : List ConvItem) (line : String) :
    (∀ item : ConvItem,
      Action.append item ∈ (cycleActions history line oracle).1 →
      item.role = "user" → item.content = pyStrip line) ∧
    ((cycleActions history line oracle).2 = true ↔
      pyLower (pyStrip line) ∈ exitTokens) ∧
    (Action.invokeAgent ∈ (cycleActions history line oracle).1 ↔
      (pyLower (pyStrip line) ∉ exitTokens ∧ pyStrip line ≠ "")) := by
  by_cases h1 : pyLower (pyStrip line) ∈ exitTokens
  · have hc : cycleActions history line oracle
        = ([Action.append ⟨"user", pyStrip line⟩, Action.emit "Goodbye!"], true) := by
      simp only [cycleActions]
      rw [if_pos h1]
    rw [hc]
    refine ⟨?_, ⟨fun _ => h1, fun _ => rfl⟩, ?_⟩
    · intro item hmem _
      rcases List.mem_cons.1 hmem with h' | h'
      · exact congrArg ConvItem.content (Action.append.inj h')
      · rcases List.mem_cons.1 h' with h'' | h''
        · exact Action.noConfusion h''
        · simp at h''
    · constructor
      · intro hmem
        rcases List.mem_cons.1 hmem with h' | h'
        · exact Action.noConfusion h'
        · rcases List.mem_cons.1 h' with h'' | h''
          · exact Action.noConfusion h''
          · simp at h''
      · rintro ⟨hn, _⟩
        exact absurd h1 hn
  · by_cases h2 : pyStrip line = ""
    · have hc : cycleActions history line oracle
          = ([Action.append ⟨"user", pyStrip line⟩], false) := by
        simp only [cycleActions]
        rw [if_neg h1, if_pos h2]
      rw [hc]
      refine ⟨?_, ?_, ?_⟩
      · intro item hmem _
        rcases List.mem_cons.1 hmem with h' | h'
        · exact congrArg ConvItem.content (Action.append.inj h')
        · simp at h'
      · exact iff_of_false (by simp) h1
      · refine iff_of_false ?_ fun hr => hr.2 h2
        intro hmem
        rcases List.mem_cons.1 hmem with h' | h'
        · exact Action.noConfusion h'
        · simp at h'
    · have hc : cycleActions history line oracle
          = ([Action.append ⟨"user", pyStrip line⟩, Action.emit "\nAgent: ",
              Action.invokeAgent] ++
             (((oracle (history ++ [⟨"user", pyStrip line⟩])).map
                dispatchActions).flatten ++ [Action.emit "\n"]), false) := by
        simp only [cycleActions]
        rw [if_neg h1, if_neg h2]
      rw [hc]
      refine ⟨?_, iff_of_false (by simp) h1, iff_of_true (by simp) ⟨h1, h2⟩⟩
      intro item hmem hrole
      rcases List.mem_append.1 hmem with h' | h'
      · rcases List.mem_cons.1 h' with h'' | h''
        · exact congrArg ConvItem.content (Action.append.inj h'')
        · rcases List.mem_cons.1 h'' with h3 | h3
          · exact Action.noConfusion h3
          · rcases List.mem_cons.1 h3 with h4 | h4
            · exact Action.noConfusion h4
            · simp at h4
      · rcases List.mem_append.1 h' with h'' | h''
        · rcases List.mem_flatten.1 h'' with ⟨l, hl, hml⟩
          rcases List.mem_map.1 hl with ⟨ev, _, rfl⟩
          rcases dispatchActions_append_roles ev item hml with hs | hs
          · exact absurd (hs.symm.trans hrole) (by decide)
          · exact absurd (hs.symm.trans hrole) (by decide)
        · rcases List.mem_cons.1 h'' with h3 | h3
          · exact Action.noConfusion h3
          · simp at h3

theorem claim_C10_witness :
    Action.append (⟨"user", "hi"⟩ : ConvItem)
        ∈ (cycleActions [] "  hi " (fun _ => [])).1 ∧
    (⟨"user", "hi"⟩ : ConvItem).content = pyStrip "  hi " :=
  ⟨by decide,
    (claim_C10_user_items_stripped (fun _ => []) [] "  hi ").1
      ⟨"user", "hi"⟩ (by decide) rfl⟩

end YTAgent
